import Mathlib

/-!
Verification of `generate_slideshow.py`: a shallow embedding of the catalog
builder (`scan_slides`, `generate_html`, `main`) and of the embedded
client-side player state machine (`SlideShowPlayer`), together with theorems
settling the specification's claims about them.

Modelling conventions:
* a directory is the list of names of its regular files, in filesystem
  iteration order (the Python code filters `f.is_file()` while iterating);
* filenames are Lean `String`s; regex matching is implemented directly on the
  character list `String.data` (Python `\d` is modelled as the ASCII digits,
  which is what every filename the spec discusses uses);
* Python's stable `list.sort(key=...)` is modelled by `stableSort`, a stable
  ascending insertion sort;
* a Python `dict` built by insertion is modelled by an insertion-ordered
  association list (`dictInsert` overwrites in place, appends when fresh);
* the JavaScript player is modelled as a record of the mutable instance
  fields plus the DOM attributes the spec talks about (active classes,
  progress-bar width, disabled flags); float arithmetic for the progress
  percentage is modelled exactly over `ℚ`.
-/

namespace Slideshow

/-- Numeric value of a run of ASCII digit characters, most significant first
(model of Python `int()` applied to a regex digit group). -/
def parseDigits (cs : List Char) : Nat :=
  cs.foldl (fun n c => n * 10 + (c.toNat - 48)) 0

/-- Model of `re.match(r'^(\d+)\.png$', name)` followed by `int(match.group(1))`:
the whole filename must be a nonempty digit run followed by ".png"; the result
is the numeric value of the digit run. -/
def pngMatch (name : String) : Option Nat :=
  match name.data.reverse with
  | 'g' :: 'n' :: 'p' :: '.' :: rest =>
      if !rest.isEmpty && rest.all Char.isDigit then some (parseDigits rest.reverse)
      else none
  | _ => none

/-- Model of `re.match(r'^(\d+)\.mp4$', name)`, returning `match.group(1)` (the
raw digit string, not its numeric value: the code uses it directly as the dict
key, so "02.mp4" binds key "02"). -/
def mp4Match (name : String) : Option String :=
  match name.data.reverse with
  | '4' :: 'p' :: 'm' :: '.' :: rest =>
      if !rest.isEmpty && rest.all Char.isDigit then some (String.mk rest.reverse)
      else none
  | _ => none

/-- Model of `re.match(r'^(\d+)-(\d+)\.mp4$', name)`, returning the key
`f"{group(1)}-{group(2)}"`, which equals the stem itself. The stem matches
exactly when it splits at a unique '-' into two nonempty digit runs. -/
def transMatch (name : String) : Option String :=
  match name.data.reverse with
  | '4' :: 'p' :: 'm' :: '.' :: rest =>
      match rest.reverse.splitOn '-' with
      | [a, b] =>
          if !a.isEmpty && a.all Char.isDigit && !b.isEmpty && b.all Char.isDigit then
            some (String.mk (a ++ '-' :: b))
          else none
      | _ => none
  | _ => none

/-- Model of `f.suffix.lower() == '.mp4'`. Pathlib corner cases (a bare ".mp4"
dotfile has suffix "") differ from this model only on names that match neither
mp4 regex, so the built map is unaffected. -/
def hasMp4Suffix (name : String) : Bool :=
  match (name.data.map Char.toLower).reverse with
  | '4' :: 'p' :: 'm' :: '.' :: _ => true
  | _ => false

/-- One slide record as built by `scan_slides`: `{'num': ..., 'filename': ...,
'path': ...}`. For files directly inside the scanned directory,
`str(f.relative_to(dir_path))` is the filename itself. -/
structure Slide where
  num : Nat
  filename : String
  path : String
deriving DecidableEq

/-- Result dictionary of `scan_slides`: `{'slides': ..., 'videos': ...,
'total': len(slides)}`. -/
structure Catalog where
  slides : List Slide
  videos : List (String × String)
  total : Nat
deriving DecidableEq

/-- Sort key comparison for `slides.sort(key=lambda x: x['num'])`. -/
def slideLE (a b : Slide) : Bool := a.num ≤ b.num

/-- Stable insertion of `a` into `l`: walk past elements whose key is
strictly smaller, so `a` lands before any element with an equal key that was
already present (those came later in the original scan of the recursion). -/
def stableInsert (a : Slide) : List Slide → List Slide
  | [] => [a]
  | b :: l => if b.num < a.num then b :: stableInsert a l else a :: b :: l

/-- Model of Python `list.sort(key=lambda x: x['num'])`: a stable sort,
ascending by numeric key. Implemented as stable insertion sort (structurally
recursive so that concrete catalogs evaluate inside the kernel); Python's
Timsort is extensionally the same function, as both are stable and
ascending. -/
def stableSort : List Slide → List Slide
  | [] => []
  | a :: l => stableInsert a (stableSort l)

/-- Insertion into an insertion-ordered association list, with Python dict
semantics: an existing key is overwritten in place, a fresh key is appended. -/
def dictInsert (k v : String) : List (String × String) → List (String × String)
  | [] => [(k, v)]
  | (k2, v2) :: rest => if k2 = k then (k, v) :: rest else (k2, v2) :: dictInsert k v rest

/-- Key lookup in the association list (model of `videos[key]` /
`this.videos[key]`, `none` standing for JavaScript `undefined`). -/
def dictLookup (k : String) : List (String × String) → Option String
  | [] => none
  | (k2, v2) :: rest => if k2 = k then some v2 else dictLookup k rest

/-- The slide record produced for one directory entry, when it matches. -/
def slideEntry (f : String) : Option Slide :=
  (pngMatch f).map fun n => { num := n, filename := f, path := f }

/-- The fixed cover-video filename 封面.mp4 checked with `cover_video.exists()`. -/
def coverName : String := "封面.mp4"

/-- Body of the video-scanning loop of `scan_slides` for one directory entry:
inside the suffix guard, a single-page match inserts under its digit-string
key, then a transition match inserts under its "from-to" key. -/
def scanVideosStep (videos : List (String × String)) (f : String) :
    List (String × String) :=
  if hasMp4Suffix f then
    let videos2 := match mp4Match f with
      | some num => dictInsert num f videos
      | none => videos
    match transMatch f with
    | some key => dictInsert key f videos2
    | none => videos2
  else videos

/-- The slide records in directory-iteration order, before sorting (the state
of the `slides` list right before `slides.sort(...)` runs). -/
def preSlides (files : List String) : List Slide :=
  files.filterMap slideEntry

/-- Model of `scan_slides`: collect the numeric PNG entries in iteration
order, sort them stably by numeric key, then build the video map starting
from the cover binding and folding the mp4 patterns over the directory. -/
def scan_slides (files : List String) : Catalog :=
  let slides := stableSort (preSlides files)
  let videos0 : List (String × String) :=
    if coverName ∈ files then dictInsert "1" coverName [] else []
  let videos := files.foldl scanVideosStep videos0
  { slides := slides, videos := videos, total := slides.length }

/-- The data that `generate_html` embeds into the output document: the title,
`slidesData` (the slide paths, in catalog order), `videosData`, and the total
shown in the page indicator. -/
structure HtmlDoc where
  title : String
  slidesData : List String
  videosData : List (String × String)
  totalShown : Nat
deriving DecidableEq

/-- Model of `generate_html`: serialize the catalog into the document data. -/
def generate_html (data : Catalog) (title : String) : HtmlDoc :=
  { title := title
    slidesData := data.slides.map fun s => s.path
    videosData := data.videos
    totalShown := data.total }

/-- Outcome of `main` after the directory has been scanned: either the failure
path (`return 1`, nothing written) or a generated document. -/
inductive MainResult where
  | failure : MainResult
  | success : HtmlDoc → MainResult
deriving DecidableEq

/-- Model of the generation step of `main`: scan, then fail without invoking
`generate_html` when no slides were found (`if not data['slides']: return 1`). -/
def main (files : List String) (title : String) : MainResult :=
  let data := scan_slides files
  if data.slides.isEmpty then .failure
  else .success (generate_html data title)

/-! The player state machine (`class SlideShowPlayer` in the generated
document). The catalog data the constructor reads is `slidesData` (the list
of slide paths) and `videosData` (the video-binding map). -/

/-- The static initialization data of one player instance. -/
structure PlayerData where
  slides : List String
  videos : List (String × String)
deriving DecidableEq

/-- The player data embedded by `generate_html` for a given catalog. -/
def playerData (c : Catalog) : PlayerData :=
  { slides := c.slides.map fun s => s.path, videos := c.videos }

/-- The mutable player state: the three instance fields (`currentSlide`,
`isVideoPlaying`, `showThumbnails`) together with the DOM attributes the
handlers read or write. `activeImage` is the index of the image element
carrying the `active` class (at most one ever does: `showSlide` clears all of
them before setting one); `videoActive` is the video element's `active`
class; `progress` is the progress-bar width in percent; `prevDisabled` /
`nextDisabled` are the navigation buttons' disabled flags; `indicatorText`
is the numeral in the page indicator; `activeThumb` is the thumbnail carrying
the `active` class. -/
structure PlayerState where
  currentSlide : Nat
  isVideoPlaying : Bool
  showThumbnails : Bool
  activeImage : Option Nat
  videoActive : Bool
  videoPaused : Bool
  videoLoop : Bool
  videoSrc : Option String
  loading : Bool
  progress : Rat
  prevDisabled : Bool
  nextDisabled : Bool
  indicatorText : Nat
  activeThumb : Option Nat
deriving DecidableEq

/-- Model of `updateUI()`: page numeral, progress-bar width
`((currentSlide + 1) / slides.length) * 100`, boundary disabled flags, and
the active-thumbnail highlight. The comparisons are taken over `Int` because
JavaScript computes `this.slides.length - 1` without truncation. The width
is written `mkRat (100 * (currentSlide + 1)) len` so that concrete states
evaluate inside the kernel; `progress_spec` below proves it equal to the
source formula `((currentSlide + 1) / len) * 100` over `ℚ` whenever the
catalog is nonempty (the only case in which `updateUI` ever runs). -/
def updateUI (d : PlayerData) (p : PlayerState) : PlayerState :=
  { p with
    indicatorText := p.currentSlide + 1
    progress := mkRat (100 * (p.currentSlide + 1) : Nat) d.slides.length
    prevDisabled := p.currentSlide == 0
    nextDisabled := ((p.currentSlide : Int) == (d.slides.length : Int) - 1)
    activeThumb := some p.currentSlide }

/-- Model of `showSlide(index)`: early return when the index is out of range;
otherwise commit the index, clear the playing flag, deactivate every image
and the video element, pause the video, activate the image at `index`, and
refresh the UI. The argument is an `Int` because callers may pass
`this.slides.length - 1`, which is `-1` on an empty catalog. -/
def showSlide (d : PlayerData) (p : PlayerState) (index : Int) : PlayerState :=
  if index < 0 ∨ (d.slides.length : Int) ≤ index then p
  else
    updateUI d
      { p with
        currentSlide := index.toNat
        isVideoPlaying := false
        activeImage := some index.toNat
        videoActive := false
        videoPaused := true }

/-- The video-cancellation prologue shared by `nextSlide`, `previousSlide`
and `goToSlide`: when a video is playing, pause it and clear the flag. -/
def cancelVideo (p : PlayerState) : PlayerState :=
  if p.isVideoPlaying then { p with videoPaused := true, isVideoPlaying := false } else p

/-- Model of `nextSlide()`. -/
def nextSlide (d : PlayerData) (p : PlayerState) : PlayerState :=
  let q := cancelVideo p
  if (q.currentSlide : Int) < (d.slides.length : Int) - 1 then
    showSlide d q ((q.currentSlide : Int) + 1)
  else q

/-- Model of `previousSlide()`. -/
def previousSlide (d : PlayerData) (p : PlayerState) : PlayerState :=
  let q := cancelVideo p
  if 0 < q.currentSlide then showSlide d q ((q.currentSlide : Int) - 1) else q

/-- Model of `goToSlide(index)`: cancellation happens before the range check,
which lives inside `showSlide`. -/
def goToSlide (d : PlayerData) (p : PlayerState) (index : Int) : PlayerState :=
  showSlide d (cancelVideo p) index

/-- Model of `toggleVideo()`: play when paused, pause when playing (the
element-level flag only; `isVideoPlaying` is not touched here). -/
def toggleVideo (p : PlayerState) : PlayerState :=
  if p.videoPaused then { p with videoPaused := false } else { p with videoPaused := true }

/-- Model of `playVideo(videoPath)`: show the loading indicator, deactivate
the current slide's image, point the video element at the new source (which
resets it to the paused state), activate it, and set the loop flag exactly
when the player is on slide index 0. Playback starts only when the
`loadeddata` event arrives. -/
def playVideo (_d : PlayerData) (p : PlayerState) (videoPath : String) : PlayerState :=
  { p with
    loading := true
    activeImage := if p.activeImage = some p.currentSlide then none else p.activeImage
    videoSrc := some videoPath
    videoActive := true
    videoPaused := true
    videoLoop := p.currentSlide == 0 }

/-- Model of `onSlideClick()`, the primary action (click or spacebar): toggle
a playing video, else start the bound video for slide number
`currentSlide + 1` when the lookup is truthy (JavaScript: `undefined` and the
empty string are falsy), else advance. -/
def onSlideClick (d : PlayerData) (p : PlayerState) : PlayerState :=
  let slideNum := toString (p.currentSlide + 1)
  if p.isVideoPlaying then toggleVideo p
  else
    match dictLookup slideNum d.videos with
    | some v => if v = "" then nextSlide d p else playVideo d p v
    | none => nextSlide d p

/-- Model of the `loadeddata` callback installed by `playVideo`: hide the
loading indicator, start playback, set the playing flag. -/
def onVideoLoaded (p : PlayerState) : PlayerState :=
  { p with loading := false, videoPaused := false, isVideoPlaying := true }

/-- Model of the `onerror` callback installed by `playVideo`: hide the
loading indicator and revert to the still image of the current slide. -/
def onVideoError (d : PlayerData) (p : PlayerState) : PlayerState :=
  showSlide d { p with loading := false } (p.currentSlide : Int)

/-- Model of `onVideoEnded()`: clear the playing flag and show the current
slide's image again. -/
def onVideoEnded (d : PlayerData) (p : PlayerState) : PlayerState :=
  showSlide d { p with isVideoPlaying := false } (p.currentSlide : Int)

/-- Model of `toggleThumbnails()`. -/
def toggleThumbnails (p : PlayerState) : PlayerState :=
  { p with showThumbnails := !p.showThumbnails }

/-- The state right after the constructor has created the DOM elements and
before `showSlide(0)` runs: fresh fields, no active classes, video paused,
progress bar without width, buttons enabled, indicator showing the markup's
initial "1". -/
def preInitState : PlayerState :=
  { currentSlide := 0
    isVideoPlaying := false
    showThumbnails := false
    activeImage := none
    videoActive := false
    videoPaused := true
    videoLoop := false
    videoSrc := none
    loading := false
    progress := 0
    prevDisabled := false
    nextDisabled := false
    indicatorText := 1
    activeThumb := none }

/-- The player state right after `init()` finished (it ends with
`showSlide(0)`). -/
def initState (d : PlayerData) : PlayerState :=
  showSlide d preInitState 0

/-- The navigation operations the invariant claim ranges over: next,
previous, jump-to, primary-action, video-ended. -/
inductive NavOp where
  | next : NavOp
  | prev : NavOp
  | goTo : Int → NavOp
  | primary : NavOp
  | ended : NavOp
deriving DecidableEq

/-- Dispatch one navigation operation. -/
def applyOp (d : PlayerData) (p : PlayerState) : NavOp → PlayerState
  | .next => nextSlide d p
  | .prev => previousSlide d p
  | .goTo index => goToSlide d p index
  | .primary => onSlideClick d p
  | .ended => onVideoEnded d p

/-- Run a finite sequence of navigation operations. -/
def runOps (d : PlayerData) (p : PlayerState) (ops : List NavOp) : PlayerState :=
  ops.foldl (applyOp d) p

/-- The spec's `ShowingImage(i)` state abstraction: the player is at index
`i`, a valid index, no video is playing or shown, and image `i` carries the
`active` class. -/
abbrev ShowingImage (d : PlayerData) (p : PlayerState) (i : Nat) : Prop :=
  p.currentSlide = i ∧ i < d.slides.length ∧ p.isVideoPlaying = false ∧
    p.videoActive = false ∧ p.activeImage = some i

/-- The spec's `PlayingVideo(i)` state abstraction: the player is at valid
index `i` and the video element is shown (a load in progress or playback). -/
abbrev PlayingVideo (d : PlayerData) (p : PlayerState) (i : Nat) : Prop :=
  p.currentSlide = i ∧ i < d.slides.length ∧ p.videoActive = true

/-- The player data of the document generated for a scanned directory. -/
def scannedPlayer (files : List String) : PlayerData :=
  playerData (scan_slides files)

/-- The navigation invariant: the current index is valid and the UI fields
written by `updateUI` agree with it. It holds right after initialization and
is preserved by every navigation operation. -/
def NavInv (d : PlayerData) (p : PlayerState) : Prop :=
  p.currentSlide < d.slides.length ∧
    p.prevDisabled = (p.currentSlide == 0) ∧
    p.nextDisabled = ((p.currentSlide : Int) == (d.slides.length : Int) - 1) ∧
    p.progress = mkRat (100 * (p.currentSlide + 1) : Nat) d.slides.length

/-! Concrete directories and player instances used by witness and
counterexample theorems. -/

/-- A two-slide catalog with no videos. -/
def dPlain : PlayerData := { slides := ["1.png", "2.png"], videos := [] }

/-- A three-slide catalog with no videos. -/
def dThree : PlayerData := { slides := ["1.png", "2.png", "3.png"], videos := [] }

/-- A three-slide catalog with a video bound to slide 1. -/
def dVid : PlayerData :=
  { slides := ["1.png", "2.png", "3.png"], videos := [("1", "封面.mp4")] }

/-- A one-slide catalog with a video bound to slide 1. -/
def dOne : PlayerData := { slides := ["1.png"], videos := [("1", "intro.mp4")] }

/-- A player on `dOne` in the middle of video playback. -/
def pPlaying : PlayerState := onVideoLoaded (onSlideClick dOne (initState dOne))

/-- A directory containing a cover video and a digit-named video for slide 1. -/
def filesBoth : List String := ["1.png", "封面.mp4", "1.mp4"]

/-- A directory containing one slide and a cover video only. -/
def filesCover : List String := ["1.png", "封面.mp4"]

/-- A directory with slides 1..3 in scrambled order plus a non-matching file. -/
def filesScrambled : List String := ["3.png", "1.png", "notes.txt", "2.png"]

/-- A directory with no matching images. -/
def filesNoImages : List String := ["readme.txt", "封面.mp4"]

/-- A mixed operation sequence including an out-of-range jump. -/
def navOpsW : List NavOp := [.primary, .ended, .next, .goTo 9, .prev]

/-! ### Helper lemmas -/

/-- The stored progress value is exactly the source's
`((currentSlide + 1) / slides.length) * 100`, as an exact rational. -/
theorem progress_spec (i len : Nat) (h : len ≠ 0) :
    mkRat (100 * (i + 1) : Nat) len = ((i : Rat) + 1) / (len : Rat) * 100 := by
  rw [Rat.mkRat_eq_div]
  have hlen : (len : Rat) ≠ 0 := by exact_mod_cast h
  field_simp
  ring

theorem stableInsert_perm (a : Slide) : ∀ l : List Slide, List.Perm (stableInsert a l) (a :: l)
  | [] => .refl _
  | b :: l => by
    simp only [stableInsert]
    split
    · exact ((stableInsert_perm a l).cons b).trans (List.Perm.swap a b l)
    · exact .refl _

theorem stableSort_perm : ∀ l : List Slide, List.Perm (stableSort l) l
  | [] => .refl _
  | a :: l => (stableInsert_perm a (stableSort l)).trans ((stableSort_perm l).cons a)

theorem stableInsert_sorted {a : Slide} :
    ∀ {l : List Slide}, l.Pairwise (fun x y => x.num ≤ y.num) →
      (stableInsert a l).Pairwise (fun x y => x.num ≤ y.num)
  | [], _ => List.pairwise_singleton _ a
  | b :: l, h => by
    rw [List.pairwise_cons] at h
    simp only [stableInsert]
    split
    · rw [List.pairwise_cons]
      refine ⟨fun x hx => ?_, stableInsert_sorted h.2⟩
      rcases List.mem_cons.mp ((stableInsert_perm a l).mem_iff.mp hx) with hx | hx
      · subst hx; omega
      · exact h.1 x hx
    · rw [List.pairwise_cons, List.pairwise_cons]
      refine ⟨fun x hx => ?_, h⟩
      rcases List.mem_cons.mp hx with hx | hx
      · subst hx; omega
      · have := h.1 x hx; omega

theorem stableSort_sorted : ∀ l : List Slide,
    (stableSort l).Pairwise (fun x y => x.num ≤ y.num)
  | [] => .nil
  | _ :: l => stableInsert_sorted (stableSort_sorted l)

theorem stableInsert_filter (a : Slide) (k : Nat) : ∀ l : List Slide,
    (stableInsert a l).filter (fun s => s.num == k) =
      if a.num = k then a :: l.filter (fun s => s.num == k)
      else l.filter (fun s => s.num == k)
  | [] => by
    simp only [stableInsert, List.filter_cons, List.filter_nil]
    by_cases h : a.num = k <;> simp [h]
  | b :: l => by
    simp only [stableInsert]
    split
    · rename_i hba
      rw [List.filter_cons, List.filter_cons, stableInsert_filter a k l]
      by_cases hak : a.num = k <;> by_cases hbk : b.num = k <;> simp_all
    · rw [List.filter_cons, List.filter_cons]
      by_cases hak : a.num = k <;> by_cases hbk : b.num = k <;> simp_all

theorem stableSort_filter (k : Nat) : ∀ l : List Slide,
    (stableSort l).filter (fun s => s.num == k) = l.filter (fun s => s.num == k)
  | [] => rfl
  | a :: l => by
    rw [stableSort, stableInsert_filter a k (stableSort l), stableSort_filter k l,
      List.filter_cons]
    by_cases h : a.num = k <;> simp [h]

theorem map_num_preSlides : ∀ files : List String,
    (preSlides files).map Slide.num = files.filterMap pngMatch
  | [] => rfl
  | f :: files => by
    simp only [preSlides, List.filterMap_cons, slideEntry]
    cases pngMatch f <;>
      simpa using map_num_preSlides files

theorem mem_dictInsert {kv : String × String} {k v : String} :
    ∀ {l}, kv ∈ dictInsert k v l → kv = (k, v) ∨ kv ∈ l
  | [], h => by simpa [dictInsert] using h
  | (k2, v2) :: rest, h => by
    simp only [dictInsert] at h
    split at h
    · rcases List.mem_cons.mp h with h | h
      · exact .inl h
      · exact .inr (List.mem_cons_of_mem _ h)
    · rcases List.mem_cons.mp h with h | h
      · exact .inr (h ▸ List.mem_cons_self _ _)
      · rcases mem_dictInsert h with h | h
        · exact .inl h
        · exact .inr (List.mem_cons_of_mem _ h)

theorem dictLookup_mem {k v : String} :
    ∀ {l}, dictLookup k l = some v → (k, v) ∈ l
  | [], h => by simp [dictLookup] at h
  | (k2, v2) :: rest, h => by
    simp only [dictLookup] at h
    split at h
    · rename_i heq
      cases h
      exact heq ▸ List.mem_cons_self _ _
    · exact List.mem_cons_of_mem _ (dictLookup_mem h)

theorem dictLookup_dictInsert_ne {k2 k v : String} (hne : k ≠ k2) :
    ∀ l, dictLookup k2 (dictInsert k v l) = dictLookup k2 l
  | [] => by simp [dictInsert, dictLookup, hne]
  | (k3, v3) :: rest => by
    simp only [dictInsert]
    split
    · rename_i heq
      simp [dictLookup, heq, hne]
    · simp only [dictLookup]
      split
      · rfl
      · exact dictLookup_dictInsert_ne hne rest

theorem hasMp4Suffix_ne {f : String} (h : hasMp4Suffix f = true) : f ≠ "" := by
  intro he
  rw [he] at h
  exact absurd h (by decide)

theorem scanVideosStep_values {vs : List (String × String)} {f : String}
    (h : ∀ kv ∈ vs, kv.2 ≠ "") : ∀ kv ∈ scanVideosStep vs f, kv.2 ≠ "" := by
  intro kv hkv
  simp only [scanVideosStep] at hkv
  split at hkv
  · rename_i hsuf
    have hf : f ≠ "" := hasMp4Suffix_ne hsuf
    have h2 : ∀ kv ∈ (match mp4Match f with
        | some num => dictInsert num f vs
        | none => vs), kv.2 ≠ "" := by
      cases mp4Match f with
      | none => simpa using h
      | some num =>
        intro kv hkv
        rcases mem_dictInsert hkv with rfl | hkv
        · exact hf
        · exact h kv hkv
    cases htm : transMatch f with
    | none =>
      rw [htm] at hkv
      exact h2 kv hkv
    | some key =>
      rw [htm] at hkv
      rcases mem_dictInsert hkv with rfl | hkv
      · exact hf
      · exact h2 kv hkv
  · exact h kv hkv

theorem foldl_values : ∀ (files : List String) (vs : List (String × String)),
    (∀ kv ∈ vs, kv.2 ≠ "") → ∀ kv ∈ files.foldl scanVideosStep vs, kv.2 ≠ ""
  | [], _, h => h
  | _ :: files, _, h => foldl_values files _ (scanVideosStep_values h)

/-- Every value stored in a scanned video map is a filename, hence nonempty:
the lookup `this.videos[slideNum]` on a scanned catalog is truthy exactly
when the key is present. -/
theorem scan_videos_values (files : List String) :
    ∀ kv ∈ (scan_slides files).videos, kv.2 ≠ "" := by
  refine foldl_values files _ ?_
  split
  · intro kv hkv
    rcases mem_dictInsert hkv with rfl | hkv
    · decide
    · simp at hkv
  · intro kv hkv
    simp at hkv

theorem mp4Match_key_one {f : String} (h : mp4Match f = some "1") : f = "1.mp4" := by
  unfold mp4Match at h
  split at h
  · rename_i rest heq
    split at h
    · have hmk : String.mk rest.reverse = "1" := Option.some.inj h
      have hr : rest.reverse = ['1'] := congrArg String.data hmk
      have hrest : rest = ['1'] := by
        have h2 := congrArg List.reverse hr
        simpa using h2
      subst hrest
      have hdata : f.data = ['1', '.', 'm', 'p', '4'] := by
        have h3 := congrArg List.reverse heq
        simpa using h3
      calc f = String.mk f.data := rfl
        _ = String.mk ['1', '.', 'm', 'p', '4'] := by rw [hdata]
        _ = "1.mp4" := rfl
    · exact absurd h (by simp)
  · exact absurd h (by simp)

theorem transMatch_key_ne_one {f key : String} (h : transMatch f = some key) :
    key ≠ "1" := by
  unfold transMatch at h
  split at h
  · split at h
    · rename_i a b heq2
      split at h
      · rename_i hguard
        have hk := Option.some.inj h
        intro hk1
        rw [hk1] at hk
        have hlen : (a ++ '-' :: b).length = 1 := by
          have h2 := congrArg (fun s => s.data.length) hk
          simpa using h2
        have ha : a ≠ [] := by
          intro hae
          rw [hae] at hguard
          simp at hguard
        have : 1 ≤ a.length := List.length_pos.mpr ha
        simp [List.length_append] at hlen
        omega
      · exact absurd h (by simp)
    · exact absurd h (by simp)
  · exact absurd h (by simp)

theorem lookup_one_scanVideosStep {vs : List (String × String)} {f : String}
    (hne : f ≠ "1.mp4") (h : dictLookup "1" vs = some coverName) :
    dictLookup "1" (scanVideosStep vs f) = some coverName := by
  simp only [scanVideosStep]
  split
  · have h2 : dictLookup "1" (match mp4Match f with
        | some num => dictInsert num f vs
        | none => vs) = some coverName := by
      cases hmm : mp4Match f with
      | none => exact h
      | some num =>
        have hnum : num ≠ "1" := fun he => hne (mp4Match_key_one (he ▸ hmm))
        rw [dictLookup_dictInsert_ne hnum vs]
        exact h
    cases htm : transMatch f with
    | none => exact h2
    | some key =>
      have hkey : key ≠ "1" := transMatch_key_ne_one htm
      rw [dictLookup_dictInsert_ne hkey _]
      exact h2
  · exact h

theorem lookup_one_foldl : ∀ (files : List String) (vs : List (String × String)),
    "1.mp4" ∉ files → dictLookup "1" vs = some coverName →
    dictLookup "1" (files.foldl scanVideosStep vs) = some coverName
  | [], _, _, h => h
  | f :: files, vs, hnotin, h =>
    lookup_one_foldl files (scanVideosStep vs f)
      (fun hm => hnotin (List.mem_cons_of_mem f hm))
      (lookup_one_scanVideosStep (fun he => hnotin (he ▸ List.mem_cons_self f files)) h)

theorem showSlide_out_of_range {d : PlayerData} {p : PlayerState} {index : Int}
    (h : index < 0 ∨ (d.slides.length : Int) ≤ index) :
    showSlide d p index = p := by
  unfold showSlide
  rw [if_pos h]

theorem showSlide_of_lt (d : PlayerData) (p : PlayerState) {i : Nat}
    (h : i < d.slides.length) :
    showSlide d p (i : Int) =
      updateUI d
        { p with
          currentSlide := i
          isVideoPlaying := false
          activeImage := some i
          videoActive := false
          videoPaused := true } := by
  unfold showSlide
  rw [if_neg (by omega)]
  simp

theorem navInv_updateUI (d : PlayerData) (p : PlayerState)
    (h : p.currentSlide < d.slides.length) : NavInv d (updateUI d p) :=
  ⟨h, rfl, rfl, rfl⟩

theorem navInv_showSlide_in {d : PlayerData} {p : PlayerState} {index : Int}
    (h0 : 0 ≤ index) (h1 : index < (d.slides.length : Int)) :
    NavInv d (showSlide d p index) := by
  unfold showSlide
  rw [if_neg (by omega)]
  refine navInv_updateUI _ _ ?_
  show index.toNat < d.slides.length
  omega

theorem navInv_showSlide {d : PlayerData} {p : PlayerState} (h : NavInv d p)
    (index : Int) : NavInv d (showSlide d p index) := by
  by_cases hin : index < 0 ∨ (d.slides.length : Int) ≤ index
  · rw [showSlide_out_of_range hin]; exact h
  · push_neg at hin
    exact navInv_showSlide_in hin.1 hin.2

theorem navInv_cancelVideo {d : PlayerData} {p : PlayerState} (h : NavInv d p) :
    NavInv d (cancelVideo p) := by
  unfold cancelVideo
  split
  · exact h
  · exact h

theorem navInv_nextSlide {d : PlayerData} {p : PlayerState} (h : NavInv d p) :
    NavInv d (nextSlide d p) := by
  simp only [nextSlide]
  split
  · exact navInv_showSlide (navInv_cancelVideo h) _
  · exact navInv_cancelVideo h

theorem navInv_previousSlide {d : PlayerData} {p : PlayerState} (h : NavInv d p) :
    NavInv d (previousSlide d p) := by
  simp only [previousSlide]
  split
  · exact navInv_showSlide (navInv_cancelVideo h) _
  · exact navInv_cancelVideo h

theorem navInv_onSlideClick {d : PlayerData} {p : PlayerState} (h : NavInv d p) :
    NavInv d (onSlideClick d p) := by
  simp only [onSlideClick]
  split
  · unfold toggleVideo
    split
    · exact h
    · exact h
  · split
    · split
      · exact navInv_nextSlide h
      · exact h
    · exact navInv_nextSlide h

theorem navInv_applyOp {d : PlayerData} {p : PlayerState} (h : NavInv d p) :
    ∀ op : NavOp, NavInv d (applyOp d p op)
  | .next => navInv_nextSlide h
  | .prev => navInv_previousSlide h
  | .goTo index => navInv_showSlide (navInv_cancelVideo h) index
  | .primary => navInv_onSlideClick h
  | .ended => by
    have h2 : NavInv d { p with isVideoPlaying := false } := h
    exact navInv_showSlide h2 (p.currentSlide : Int)

theorem navInv_runOps {d : PlayerData} :
    ∀ (ops : List NavOp) {p : PlayerState}, NavInv d p → NavInv d (runOps d p ops)
  | [], _, h => h
  | op :: ops, _, h => navInv_runOps ops (navInv_applyOp h op)

theorem navInv_initState {d : PlayerData} (h : d.slides ≠ []) :
    NavInv d (initState d) := by
  unfold initState
  refine navInv_showSlide_in le_rfl ?_
  have := List.length_pos.mpr h
  omega

theorem cancelVideo_currentSlide (p : PlayerState) :
    (cancelVideo p).currentSlide = p.currentSlide := by
  unfold cancelVideo
  split <;> rfl

theorem cancelVideo_of_not_playing {p : PlayerState} (h : p.isVideoPlaying = false) :
    cancelVideo p = p := by
  simp [cancelVideo, h]

theorem showSlide_currentSlide_of_lt {d : PlayerData} {p : PlayerState} {i : Nat}
    (h : i < d.slides.length) : (showSlide d p (i : Int)).currentSlide = i := by
  rw [showSlide_of_lt d p h]
  rfl

theorem onVideoEnded_showing {d : PlayerData} {p : PlayerState} {i : Nat}
    (hc : p.currentSlide = i) (hlt : i < d.slides.length) :
    ShowingImage d (onVideoEnded d p) i ∧ (onVideoEnded d p).currentSlide = i := by
  unfold onVideoEnded
  rw [show ((({ p with isVideoPlaying := false } : PlayerState)).currentSlide : Int)
      = (i : Int) by rw [show ({ p with isVideoPlaying := false } :
        PlayerState).currentSlide = i from hc]]
  rw [showSlide_of_lt d _ hlt]
  exact ⟨⟨rfl, hlt, rfl, rfl, rfl⟩, rfl⟩

/-! ### Claim theorems -/

/-- Claim C1: from a player state `ShowingImage(i)` whose video-binding map
has no entry for key `i + 1` (as a string), the primary action produces
exactly the state next-slide produces: `currentIndex` becomes `i + 1` when
`i + 1 < len(slides)`, and the state is unchanged when `i` is the last
index. -/
theorem primary_no_binding_eq_next (d : PlayerData) (p : PlayerState) (i : Nat)
    (hs : ShowingImage d p i)
    (hb : dictLookup (toString (i + 1)) d.videos = none) :
    onSlideClick d p = nextSlide d p ∧
      (i + 1 < d.slides.length → (onSlideClick d p).currentSlide = i + 1) ∧
      (i = d.slides.length - 1 → onSlideClick d p = p) := by
  obtain ⟨hc, hlt, hvp, hva, hai⟩ := hs
  have hclick : onSlideClick d p = nextSlide d p := by
    simp only [onSlideClick, hvp, hc, hb, Bool.false_eq_true, if_false]
  refine ⟨hclick, ?_, ?_⟩
  · intro hrange
    rw [hclick]
    simp only [nextSlide, cancelVideo_of_not_playing hvp, hc]
    rw [if_pos (by omega)]
    rw [show ((i : Int) + 1) = ((i + 1 : Nat) : Int) by push_cast; ring]
    exact showSlide_currentSlide_of_lt hrange
  · intro hlast
    rw [hclick]
    simp only [nextSlide, cancelVideo_of_not_playing hvp, hc]
    rw [if_neg (by omega)]

/-- Claim C1 witness: a concrete two-slide catalog with no bindings, at
index 0. -/
theorem primary_no_binding_eq_next_witness :
    onSlideClick dPlain (initState dPlain) = nextSlide dPlain (initState dPlain) ∧
      (0 + 1 < dPlain.slides.length →
        (onSlideClick dPlain (initState dPlain)).currentSlide = 0 + 1) ∧
      (0 = dPlain.slides.length - 1 →
        onSlideClick dPlain (initState dPlain) = initState dPlain) :=
  primary_no_binding_eq_next dPlain (initState dPlain) 0 (by decide) (by decide)

/-- Claim C6 counterexample: jump-to with an out-of-range index while a
video is playing is not a no-op on the whole state: the cancellation
prologue runs before the range check, so `isVideoPlaying` flips to false. -/
theorem goToSlide_out_of_range_cex :
    (dOne.slides.length : Int) ≤ 5 ∧
    pPlaying.isVideoPlaying = true ∧
    (goToSlide dOne pPlaying 5).isVideoPlaying = false ∧
    goToSlide dOne pPlaying 5 ≠ pPlaying := by decide

/-- Claim C6 (amended): an out-of-range jump-to raises no error (the model
is a total function) and leaves `currentIndex`, `showThumbnails` and the
displayed slide (active image and video-element visibility) unchanged; when
no video is playing it is a complete no-op, but when a video is playing it
still runs the cancellation prologue: the video is paused and
`isVideoPlaying` is cleared. -/
theorem goToSlide_out_of_range (d : PlayerData) (p : PlayerState) (index : Int)
    (h : index < 0 ∨ (d.slides.length : Int) ≤ index) :
    (goToSlide d p index).currentSlide = p.currentSlide ∧
    (goToSlide d p index).showThumbnails = p.showThumbnails ∧
    (goToSlide d p index).activeImage = p.activeImage ∧
    (goToSlide d p index).videoActive = p.videoActive ∧
    (goToSlide d p index).progress = p.progress ∧
    (p.isVideoPlaying = false → goToSlide d p index = p) ∧
    (p.isVideoPlaying = true →
      goToSlide d p index = { p with isVideoPlaying := false, videoPaused := true }) := by
  unfold goToSlide
  rw [showSlide_out_of_range h]
  cases hvp : p.isVideoPlaying <;> simp [cancelVideo, hvp]

/-- Claim C6 (amended) witness: the concrete playing state of the
counterexample, jumped to index 5. -/
theorem goToSlide_out_of_range_witness :
    (goToSlide dOne pPlaying 5).currentSlide = pPlaying.currentSlide ∧
    (goToSlide dOne pPlaying 5).showThumbnails = pPlaying.showThumbnails ∧
    (goToSlide dOne pPlaying 5).activeImage = pPlaying.activeImage ∧
    (goToSlide dOne pPlaying 5).videoActive = pPlaying.videoActive ∧
    (goToSlide dOne pPlaying 5).progress = pPlaying.progress ∧
    (pPlaying.isVideoPlaying = false → goToSlide dOne pPlaying 5 = pPlaying) ∧
    (pPlaying.isVideoPlaying = true →
      goToSlide dOne pPlaying 5 =
        { pPlaying with isVideoPlaying := false, videoPaused := true }) :=
  goToSlide_out_of_range dOne pPlaying 5 (by decide)

/-- Claim C7: from any `PlayingVideo(i)` state (video load in progress or
playback active at index `i`), the load-error event reverts the player to
`ShowingImage(i)` at the same index, with the loading indicator cleared;
the handler is a total function of the state, so the failure never
surfaces as an error. -/
theorem video_error_reverts (d : PlayerData) (p : PlayerState) (i : Nat)
    (h : PlayingVideo d p i) :
    ShowingImage d (onVideoError d p) i ∧
    (onVideoError d p).currentSlide = i ∧
    (onVideoError d p).loading = false := by
  obtain ⟨hc, hlt, hva⟩ := h
  unfold onVideoError
  rw [show ((({ p with loading := false } : PlayerState)).currentSlide : Int)
      = (i : Int) by rw [show ({ p with loading := false } :
        PlayerState).currentSlide = i from hc]]
  rw [showSlide_of_lt d _ hlt]
  exact ⟨⟨rfl, hlt, rfl, rfl, rfl⟩, rfl, rfl⟩

/-- Claim C7 witness: the load-in-progress state after clicking the bound
slide of a one-slide catalog. -/
theorem video_error_reverts_witness :
    ShowingImage dOne (onVideoError dOne (onSlideClick dOne (initState dOne))) 0 ∧
    (onVideoError dOne (onSlideClick dOne (initState dOne))).currentSlide = 0 ∧
    (onVideoError dOne (onSlideClick dOne (initState dOne))).loading = false :=
  video_error_reverts dOne (onSlideClick dOne (initState dOne)) 0 (by decide)

/-- Claim C8: a scan of a directory with no filenames matching the image
pattern yields a catalog with an empty slide list and `total = 0` (a normal
return value at that layer), and the generation step then fails without
invoking `generate_html`. -/
theorem no_slides_failure (files : List String) (title : String)
    (h : ∀ f ∈ files, pngMatch f = none) :
    (scan_slides files).slides = [] ∧ (scan_slides files).total = 0 ∧
    main files title = .failure := by
  have hpre : preSlides files = [] := by
    induction files with
    | nil => rfl
    | cons f fs ih =>
      have hf : pngMatch f = none := h f (List.mem_cons_self f fs)
      simp only [preSlides, List.filterMap_cons, slideEntry, hf, Option.map_none']
      exact ih fun g hg => h g (List.mem_cons_of_mem f hg)
  have hsl : (scan_slides files).slides = [] := by
    show stableSort (preSlides files) = []
    rw [hpre]
    rfl
  refine ⟨hsl, ?_, ?_⟩
  · show (stableSort (preSlides files)).length = 0
    rw [hpre]
    rfl
  · simp only [main, hsl, List.isEmpty_nil, if_true]

/-- Claim C8 witness: a directory holding only a text file and the cover
video. -/
theorem no_slides_failure_witness :
    (scan_slides filesNoImages).slides = [] ∧ (scan_slides filesNoImages).total = 0 ∧
    main filesNoImages "title" = .failure :=
  no_slides_failure filesNoImages "title" (by decide)

/-- Claim C2: from a player state `ShowingImage(i)` of a scanned catalog
whose video-binding map has an entry for key `i + 1` (as a string), the
primary action transitions to `PlayingVideo(i)` without changing
`currentIndex`, and a subsequent video-ended event returns the player to
`ShowingImage(i)` with the same index (a round trip on `currentIndex`).
The quantification runs over the catalogs the program builds
(`scannedPlayer`), whose binding values are always nonempty filenames
(`scan_videos_values`) and hence truthy in the lookup guard. -/
theorem primary_with_binding_roundtrip (files : List String) (p : PlayerState)
    (i : Nat) (v : String)
    (hs : ShowingImage (scannedPlayer files) p i)
    (hb : dictLookup (toString (i + 1)) (scannedPlayer files).videos = some v) :
    PlayingVideo (scannedPlayer files) (onSlideClick (scannedPlayer files) p) i ∧
    (onSlideClick (scannedPlayer files) p).currentSlide = i ∧
    ShowingImage (scannedPlayer files)
      (onVideoEnded (scannedPlayer files) (onSlideClick (scannedPlayer files) p)) i ∧
    (onVideoEnded (scannedPlayer files)
      (onSlideClick (scannedPlayer files) p)).currentSlide = i := by
  obtain ⟨hc, hlt, hvp, hva, hai⟩ := hs
  have hv : v ≠ "" := scan_videos_values files _ (dictLookup_mem hb)
  have hclick : onSlideClick (scannedPlayer files) p =
      playVideo (scannedPlayer files) p v := by
    simp only [onSlideClick, hvp, hc, hb, Bool.false_eq_true, if_false]
    rw [if_neg hv]
  have hcs : (onSlideClick (scannedPlayer files) p).currentSlide = i := by
    rw [hclick]; exact hc
  have hround := onVideoEnded_showing hcs hlt
  refine ⟨⟨hcs, hlt, ?_⟩, hcs, hround.1, hround.2⟩
  rw [hclick]
  rfl

/-- Claim C2 witness: the one-slide directory with a cover video, clicked at
index 0. -/
theorem primary_with_binding_roundtrip_witness :
    PlayingVideo (scannedPlayer filesCover)
      (onSlideClick (scannedPlayer filesCover) (initState (scannedPlayer filesCover))) 0 ∧
    (onSlideClick (scannedPlayer filesCover)
      (initState (scannedPlayer filesCover))).currentSlide = 0 ∧
    ShowingImage (scannedPlayer filesCover)
      (onVideoEnded (scannedPlayer filesCover)
        (onSlideClick (scannedPlayer filesCover) (initState (scannedPlayer filesCover)))) 0 ∧
    (onVideoEnded (scannedPlayer filesCover)
      (onSlideClick (scannedPlayer filesCover)
        (initState (scannedPlayer filesCover)))).currentSlide = 0 :=
  primary_with_binding_roundtrip filesCover (initState (scannedPlayer filesCover))
    0 coverName (by decide) (by decide)

/-- Claim C3: for every directory whose matching image files carry numeric
keys exactly `1..N` (as the files `1.png` to `N.png` do), in any filesystem
iteration order and regardless of additional non-matching filenames (they
are dropped by the filter), the catalog's slide sequence has length `N` and
is sorted strictly ascending by numeric key; the ordering is numeric, not
lexicographic: "2.png" sorts before "10.png". -/
theorem scan_slides_sorted (files : List String) (N : Nat)
    (h : List.Perm (files.filterMap pngMatch) ((List.range N).map (· + 1))) :
    (scan_slides files).slides.length = N ∧
    (scan_slides files).total = N ∧
    (scan_slides files).slides.Pairwise (fun a b => a.num < b.num) ∧
    (scan_slides ["10.png", "2.png"]).slides.map Slide.filename =
      ["2.png", "10.png"] := by
  have hmap := map_num_preSlides files
  have hlen1 : (preSlides files).length = N := by
    have h1 := congrArg List.length hmap
    rw [List.length_map] at h1
    have h2 := h.length_eq
    rw [List.length_map, List.length_range] at h2
    omega
  have hlen : (stableSort (preSlides files)).length = N := by
    rw [(stableSort_perm _).length_eq, hlen1]
  have hpermnum : List.Perm ((stableSort (preSlides files)).map Slide.num)
      ((List.range N).map (· + 1)) := by
    have hp := (stableSort_perm (preSlides files)).map Slide.num
    rw [hmap] at hp
    exact hp.trans h
  have hnodup : ((stableSort (preSlides files)).map Slide.num).Nodup := by
    refine hpermnum.nodup_iff.mpr ?_
    exact List.Nodup.map (fun a b hab => by omega) (List.nodup_range N)
  have hne : (stableSort (preSlides files)).Pairwise (fun a b => a.num ≠ b.num) :=
    List.pairwise_map.mp hnodup
  have hsorted := stableSort_sorted (preSlides files)
  exact ⟨hlen, hlen, (hsorted.and hne).imp fun hab => Nat.lt_of_le_of_ne hab.1 hab.2,
    by decide⟩

/-- Claim C3 witness: slides 1..3 in scrambled iteration order with a
non-matching file in between. -/
theorem scan_slides_sorted_witness :
    (scan_slides filesScrambled).slides.length = 3 ∧
    (scan_slides filesScrambled).total = 3 ∧
    (scan_slides filesScrambled).slides.Pairwise (fun a b => a.num < b.num) ∧
    (scan_slides ["10.png", "2.png"]).slides.map Slide.filename =
      ["2.png", "10.png"] :=
  scan_slides_sorted filesScrambled 3 (by decide)

/-- Claim C10 (implicit): distinct filenames with the same numeric value,
such as "2.png" and "02.png", both match the image pattern and both appear
in the catalog as separate slides sharing the numeric key; and because the
sort is stable, for every key the slides carrying it appear in the final
sequence in exactly their directory-iteration order (their filtered
subsequence is unchanged by the sort). -/
theorem equal_key_slides_stable (files : List String) (k : Nat) :
    (scan_slides files).slides.filter (fun s => s.num == k) =
      (preSlides files).filter (fun s => s.num == k) ∧
    pngMatch "2.png" = some 2 ∧
    pngMatch "02.png" = some 2 ∧
    (scan_slides ["02.png", "2.png"]).slides =
      [{ num := 2, filename := "02.png", path := "02.png" },
       { num := 2, filename := "2.png", path := "2.png" }] :=
  ⟨stableSort_filter k (preSlides files), by decide, by decide, by decide⟩

/-- Claim C4: starting from the initial state of a nonempty catalog,
`currentIndex` stays a valid index in `[0, len - 1]` after every finite
sequence of navigation operations (next, previous, jump-to, primary-action,
video-ended); next at the last index and previous at index 0 leave
`currentIndex` unchanged; and the previous/next disabled flags hold exactly
at index 0 and at index `len - 1`. -/
theorem nav_index_invariant (d : PlayerData) (hne : d.slides ≠ [])
    (ops : List NavOp) :
    (runOps d (initState d) ops).currentSlide < d.slides.length ∧
    ((runOps d (initState d) ops).prevDisabled = true ↔
      (runOps d (initState d) ops).currentSlide = 0) ∧
    ((runOps d (initState d) ops).nextDisabled = true ↔
      (runOps d (initState d) ops).currentSlide = d.slides.length - 1) ∧
    ((runOps d (initState d) ops).currentSlide = d.slides.length - 1 →
      (nextSlide d (runOps d (initState d) ops)).currentSlide =
        (runOps d (initState d) ops).currentSlide) ∧
    ((runOps d (initState d) ops).currentSlide = 0 →
      (previousSlide d (runOps d (initState d) ops)).currentSlide =
        (runOps d (initState d) ops).currentSlide) := by
  have hlen := List.length_pos.mpr hne
  obtain ⟨h1, h2, h3, _⟩ := navInv_runOps ops (navInv_initState hne)
  set q := runOps d (initState d) ops with hq
  refine ⟨h1, ?_, ?_, ?_, ?_⟩
  · rw [h2]
    simp [beq_iff_eq]
  · rw [h3]
    simp only [beq_iff_eq]
    omega
  · intro hlast
    simp only [nextSlide]
    rw [if_neg (by rw [cancelVideo_currentSlide]; omega)]
    exact cancelVideo_currentSlide q
  · intro h0
    simp only [previousSlide]
    rw [if_neg (by rw [cancelVideo_currentSlide]; omega)]
    exact cancelVideo_currentSlide q

/-- Claim C4 witness: a concrete three-slide catalog with a binding on
slide 1 and a mixed operation sequence including an out-of-range jump. -/
theorem nav_index_invariant_witness :
    (runOps dVid (initState dVid) navOpsW).currentSlide < dVid.slides.length ∧
    ((runOps dVid (initState dVid) navOpsW).prevDisabled = true ↔
      (runOps dVid (initState dVid) navOpsW).currentSlide = 0) ∧
    ((runOps dVid (initState dVid) navOpsW).nextDisabled = true ↔
      (runOps dVid (initState dVid) navOpsW).currentSlide = dVid.slides.length - 1) ∧
    ((runOps dVid (initState dVid) navOpsW).currentSlide = dVid.slides.length - 1 →
      (nextSlide dVid (runOps dVid (initState dVid) navOpsW)).currentSlide =
        (runOps dVid (initState dVid) navOpsW).currentSlide) ∧
    ((runOps dVid (initState dVid) navOpsW).currentSlide = 0 →
      (previousSlide dVid (runOps dVid (initState dVid) navOpsW)).currentSlide =
        (runOps dVid (initState dVid) navOpsW).currentSlide) :=
  nav_index_invariant dVid (by decide) navOpsW

/-- Claim C9: after every sequence of navigation operations the progress
width equals `((currentIndex + 1) / len(slides)) * 100` percent, as an
exact rational (the browser computes the same expression in floating
point); in particular a 3-slide catalog at index 1 reports 200/3, within
rounding distance of 66.7. -/
theorem progress_indicator (d : PlayerData) (hne : d.slides ≠ [])
    (ops : List NavOp) :
    (runOps d (initState d) ops).progress =
      (((runOps d (initState d) ops).currentSlide : Rat) + 1) /
        (d.slides.length : Rat) * 100 ∧
    (nextSlide dThree (initState dThree)).currentSlide = 1 ∧
    |(nextSlide dThree (initState dThree)).progress - 667 / 10| ≤ 1 / 10 := by
  obtain ⟨h1, _, _, h4⟩ := navInv_runOps ops (navInv_initState hne)
  refine ⟨?_, by decide, ?_⟩
  · rw [h4, progress_spec _ _ (fun h0 => hne (List.length_eq_zero.mp h0))]
  · have hp : (nextSlide dThree (initState dThree)).progress = mkRat 200 3 := by
      decide
    rw [hp, Rat.mkRat_eq_div, abs_le]
    constructor <;> norm_num

/-- Claim C9 witness: the three-slide catalog after one next operation. -/
theorem progress_indicator_witness :
    (runOps dThree (initState dThree) [.next]).progress =
      (((runOps dThree (initState dThree) [.next]).currentSlide : Rat) + 1) /
        (dThree.slides.length : Rat) * 100 ∧
    (nextSlide dThree (initState dThree)).currentSlide = 1 ∧
    |(nextSlide dThree (initState dThree)).progress - 667 / 10| ≤ 1 / 10 :=
  progress_indicator dThree (by decide) [.next]

/-- Claim C5 counterexample: with both 封面.mp4 and 1.mp4 in the directory,
the cover binding is installed first and the digit-named video loop then
overwrites key "1", so the key is not bound to the cover file. -/
theorem cover_binding_cex :
    coverName ∈ filesBoth ∧
    dictLookup "1" (scan_slides filesBoth).videos = some "1.mp4" ∧
    dictLookup "1" (scan_slides filesBoth).videos ≠ some coverName := by decide

/-- Claim C5 (amended): if the cover video 封面.mp4 is present and no file
named 1.mp4 is (the only filename whose digit-video key is "1", which would
overwrite the binding later in the same scan), the catalog's video map
binds key "1" to the cover file; and `playVideo` sets the loop flag exactly
when the player is at index 0, so only a video played on the first slide
loops while any other plays once. -/
theorem cover_binding_and_loop (files : List String)
    (hc : coverName ∈ files) (h1 : "1.mp4" ∉ files) :
    dictLookup "1" (scan_slides files).videos = some coverName ∧
    ∀ (d : PlayerData) (p : PlayerState) (v : String),
      ((playVideo d p v).videoLoop = true ↔ p.currentSlide = 0) := by
  constructor
  · show dictLookup "1" (files.foldl scanVideosStep
      (if coverName ∈ files then dictInsert "1" coverName [] else [])) = some coverName
    refine lookup_one_foldl files _ h1 ?_
    rw [if_pos hc]
    decide
  · intro d p v
    simp [playVideo]

/-- Claim C5 (amended) witness: the cover-only directory, and the loop flag
of a playback started at index 0 of the one-slide catalog. -/
theorem cover_binding_and_loop_witness :
    dictLookup "1" (scan_slides filesCover).videos = some coverName ∧
    ((playVideo dOne (initState dOne) "x.mp4").videoLoop = true ↔
      (initState dOne).currentSlide = 0) :=
  ⟨(cover_binding_and_loop filesCover (by decide) (by decide)).1,
   (cover_binding_and_loop filesCover (by decide) (by decide)).2 dOne
     (initState dOne) "x.mp4"⟩

end Slideshow
